import Mathlib

set_option maxRecDepth 10000

/-!
Verification of the product repository engine of the mebayu backend.

The definitions below are a shallow embedding of the Rust sources:
  * `src/core/error.rs`                                  — `AppError`
  * `src/shared/dto/pagination.rs`                       — `PaginationQuery`
  * `src/domain/products/entity.rs`                      — `Product`, `ProductImage`
  * `src/infrastructure/repository/product_repository_impl.rs`
        — `find_all` query construction, `find_by_id`, `create`, `update`, `delete`
  * `src/domain/products/service.rs`                     — `get_all` pagination response

Uuids are modelled as `Nat`; timestamps as `Nat`; the `f64` price is carried
opaquely as `Int` (none of the modelled code performs arithmetic on it).
Database tables are lists of rows; a transaction is modelled functionally:
each mutating operation returns the committed state together with its
`Except` result, and returns the input state unchanged whenever the
transaction rolls back.
-/

namespace Mebayu

/-- Error taxonomy from `src/core/error.rs` (`AppError`).  The `Validation`
payload `HashMap<String, Vec<String>>` is modelled as an association list. -/
inductive AppError where
  | NotFound (msg : String)
  | Validation (errs : List (String × List String))
  | Database (msg : String)
  | Unauthorized (msg : String)
  | Forbidden (msg : String)
deriving Repr, DecidableEq

/-- Row of the `product_categories` table (`domain/product_categories/entity.rs`). -/
structure ProductCategory where
  id : Nat
  name : String
  created_at : Nat
  updated_at : Nat
deriving Repr, DecidableEq

/-- Row of the `product_materials` table (`domain/product_materials/entity.rs`). -/
structure ProductMaterial where
  id : Nat
  name : String
  created_at : Nat
  updated_at : Nat
deriving Repr, DecidableEq

/-- `ProductImage` from `domain/products/entity.rs`; also the row shape of the
`product_images` table. -/
structure ProductImage where
  id : Nat
  product_id : Nat
  url : String
  created_at : Nat
  updated_at : Nat
deriving Repr, DecidableEq

/-- The `Product` aggregate from `domain/products/entity.rs`.  On the write
path only the scalar fields, `category_ids`, `material_ids` and `images` are
consumed; the read path recomputes `category_ids`/`material_ids` and the three
collections from the relation tables. -/
structure Product where
  id : Nat
  name : String
  price : Int
  description : String
  status : String
  created_at : Nat
  updated_at : Nat
  category_ids : List Nat
  material_ids : List Nat
  categories : List ProductCategory
  product_materials : List ProductMaterial
  images : List ProductImage
deriving Repr, DecidableEq

/-- Scalar row of the `products` table.  The columns written by the repository
are those of the `INSERT INTO products` statement.  `material` is a free-text
column referenced by the search filter (`p.material ILIKE $3`).
Modelled from the spec: the migration files defining the `products` table are
not under `src/`; per the spec the table carries a free-text material label
matched by search, not written by `create`/`update` (defaulted here to `""`). -/
structure ProductRow where
  id : Nat
  name : String
  price : Int
  description : String
  status : String
  material : String
  created_at : Nat
  updated_at : Nat
deriving Repr, DecidableEq

/-- The relational store: one list per table touched by the product
repository.  Relation rows are `(product_id, category_id)` resp.
`(product_id, material_id)` pairs, as in the two `INSERT INTO
product_*_relations` statements. -/
structure DBState where
  products : List ProductRow
  product_categories : List ProductCategory
  product_materials : List ProductMaterial
  category_rels : List (Nat × Nat)
  material_rels : List (Nat × Nat)
  product_images : List ProductImage
deriving Repr, DecidableEq

/-- `find_by_id` (product_repository_impl.rs:149-220): look up the product row
and hydrate the aggregate; the three collections are the relation-joined rows
(`json_agg(DISTINCT …)`), and `category_ids`/`material_ids` are recomputed as
the id projection of the joined collections. -/
def findById (st : DBState) (pid : Nat) : Except AppError Product :=
  match st.products.find? (fun r => r.id == pid) with
  | none => .error (.NotFound "Product not found")
  | some r =>
    let categories := st.product_categories.filter
      (fun c => st.category_rels.any (fun rel => rel.1 == pid && rel.2 == c.id))
    let materials := st.product_materials.filter
      (fun m => st.material_rels.any (fun rel => rel.1 == pid && rel.2 == m.id))
    let images := st.product_images.filter (fun im => im.product_id == pid)
    .ok {
      id := r.id
      name := r.name
      price := r.price
      description := r.description
      status := r.status
      created_at := r.created_at
      updated_at := r.updated_at
      category_ids := categories.map (fun c => c.id)
      material_ids := materials.map (fun m => m.id)
      categories := categories
      product_materials := materials
      images := images }

/-- `create` (product_repository_impl.rs:222-313).  In source order: reject an
empty `category_ids` with `Validation`; count the `product_categories` rows
whose id is among the supplied ids (`SELECT count(*) … WHERE id = ANY($1)`)
and reject with `NotFound` unless the count equals the number of supplied ids;
then insert the product row, one relation row per category id, one per
material id, and one image row per image (the image insert stores the parent
product id in `product_id`).  On success the committed state is read back with
`find_by_id`.  Any error before commit leaves the state unchanged. -/
def create (st : DBState) (p : Product) : DBState × Except AppError Product :=
  if p.category_ids.isEmpty then
    (st, .error (.Validation [("category_ids", ["At least one category is required"])]))
  else
    if (st.product_categories.filter (fun c => p.category_ids.contains c.id)).length
        ≠ p.category_ids.length then
      (st, .error (.NotFound "One or more categories not found"))
    else
      let row : ProductRow := {
        id := p.id, name := p.name, price := p.price, description := p.description,
        status := p.status, material := "", created_at := p.created_at,
        updated_at := p.updated_at }
      let st' : DBState := { st with
        products := st.products ++ [row]
        category_rels := st.category_rels ++ p.category_ids.map (fun c => (p.id, c))
        material_rels := st.material_rels ++ p.material_ids.map (fun m => (p.id, m))
        product_images := st.product_images ++
          p.images.map (fun im => { im with product_id := p.id }) }
      (st', findById st' p.id)

/-- `update` (product_repository_impl.rs:315-408).  In one transaction: update
the scalar columns of the row with the given id (zero affected rows is not an
error); delete all category relation rows for the id and insert the supplied
set; likewise for material relations; delete all image rows for the id and
insert the supplied images.  The image `INSERT` statement lists six columns
and six placeholders (`id, product_id, url, is_primary, created_at,
updated_at`) but binds only five values, so executing it fails at runtime;
hence a non-empty `images` list aborts the transaction with a `Database` error
and the state is unchanged.  On commit the state is read back with
`find_by_id`. -/
def update (st : DBState) (pid : Nat) (p : Product) : DBState × Except AppError Product :=
  let products' := st.products.map (fun r =>
    if r.id == pid then
      { r with
        name := p.name
        price := p.price
        description := p.description
        status := p.status
        updated_at := p.updated_at }
    else r)
  let category_rels' := st.category_rels.filter (fun rel => rel.1 != pid)
      ++ p.category_ids.map (fun c => (pid, c))
  let material_rels' := st.material_rels.filter (fun rel => rel.1 != pid)
      ++ p.material_ids.map (fun m => (pid, m))
  let images_cleared := st.product_images.filter (fun im => im.product_id != pid)
  if p.images.isEmpty then
    let st' : DBState := { st with
      products := products'
      category_rels := category_rels'
      material_rels := material_rels'
      product_images := images_cleared }
    (st', findById st' pid)
  else
    (st, .error (.Database
      "bind message supplies 5 parameters, but prepared statement requires 6"))

/-- `delete` (product_repository_impl.rs:410-417): `DELETE FROM products WHERE
id = $1` with no existence check; always succeeds. -/
def delete (st : DBState) (pid : Nat) : DBState × Except AppError Unit :=
  ({ st with products := st.products.filter (fun r => r.id != pid) }, .ok ())

/-- `SortOrder` from `shared/dto/pagination.rs`. -/
inductive SortOrder where
  | Asc
  | Desc
deriving Repr, DecidableEq

/-- `PaginationQuery` from `shared/dto/pagination.rs` (`u32` fields as `Nat`). -/
structure PaginationQuery where
  page : Option Nat
  limit : Option Nat
  search : Option String
  sort : Option String
  sort_order : Option SortOrder
deriving Repr, DecidableEq

/-- `get_page`: `self.page.unwrap_or(1)`. -/
def PaginationQuery.get_page (q : PaginationQuery) : Nat := q.page.getD 1

/-- `get_limit`: `self.limit.unwrap_or(10)`. -/
def PaginationQuery.get_limit (q : PaginationQuery) : Nat := q.limit.getD 10

/-- `get_offset`: `((self.get_page() - 1) * self.get_limit()) as i64`.  The
subtraction is on `u32`; truncated subtraction on `Nat` agrees with it for
every `page ≥ 1` (for `page = 0` the Rust code would underflow, a case no
claim touches). -/
def PaginationQuery.get_offset (q : PaginationQuery) : Nat :=
  (q.get_page - 1) * q.get_limit

/-- `get_search`: `self.search.clone()`. -/
def PaginationQuery.get_search (q : PaginationQuery) : Option String := q.search

/-- Round-to-nearest integer division with ties to even (`num / den` for
`den ≥ 1`): the rounding IEEE 754 applies to a scaled mantissa. -/
def rdiv (num den : Nat) : Nat :=
  let q := num / den
  let r := num % den
  if 2 * r < den then q
  else if den < 2 * r then q + 1
  else if q % 2 = 0 then q else q + 1

/-- The value of `n as f64` (IEEE 754 binary64, round to nearest, ties to
even) for `n` in `u64` range: exact for `n ≤ 2^53`; otherwise the low
`e = ⌊log2 n⌋ - 52` bits are rounded away half-to-even.  The binary exponent
is located by searching for the unique `e ≥ 1` with `n < 2^(53+e)` (so
`2^52 ≤ n / 2^e < 2^53`), avoiding non-computing recursion. -/
def f64OfNat (n : Nat) : Nat :=
  if n ≤ 2 ^ 53 then n
  else
    let e := ((List.range 64).find? (fun i => n < 2 ^ (54 + i))).getD 0 + 1
    let q := n / 2 ^ e
    let r := n % 2 ^ e
    let half := 2 ^ (e - 1)
    if r < half then q * 2 ^ e
    else if half < r then (q + 1) * 2 ^ e
    else if q % 2 = 0 then q * 2 ^ e else (q + 1) * 2 ^ e

/-- `2^(i-64) ≤ a/b < 2^(i-64+1)`, scaled by `2^64` into `Nat` arithmetic:
the binary-exponent bracket of the exact quotient `a/b`. -/
def divExpCond (a b i : Nat) : Bool :=
  b * 2 ^ i ≤ a * 2 ^ 64 && a * 2 ^ 64 < b * 2 ^ (i + 1)

/-- The binary exponent `⌊log2 (a/b)⌋` of the exact quotient of two positive
integers in `u64` range, found by bounded search over `[-64, 64]`. -/
def divExp (a b : Nat) : Int :=
  ((((List.range 129).find? (fun i => divExpCond a b i)).getD 64 : Nat) : Int) - 64

/-- An IEEE 754 binary64 value `m * 2^e` (unnormalized mantissa/exponent
pair; only the value matters to the modelled computation). -/
structure F64 where
  m : Nat
  e : Int
deriving Repr, DecidableEq

/-- IEEE 754 binary64 division of two nonnegative integer-valued doubles
(`a`, `b ≥ 1` in `u64` range): the exact quotient `a/b` is scaled into
`[2^52, 2^53)` by the exponent found with `divExp` and rounded to nearest,
ties to even — the correctly rounded result every IEEE implementation must
return. -/
def f64DivNat (a b : Nat) : F64 :=
  if a = 0 then ⟨0, 0⟩
  else
    ⟨if divExp a b ≤ 52 then rdiv (a * 2 ^ ((52 : Int) - divExp a b).toNat) b
      else rdiv a (b * 2 ^ (divExp a b - 52).toNat),
     divExp a b - 52⟩

/-- `f64::ceil` followed by `as u64` for a nonnegative in-range value:
`f64::ceil` is exact on every finite double and the cast is exact for
integers below `2^64`. -/
def F64.ceilNat : F64 → Nat
  | ⟨m, e⟩ => if 0 ≤ e then m * 2 ^ e.toNat else (m + 2 ^ (-e).toNat - 1) / 2 ^ (-e).toNat

/-- `(total_data as f64 / limit as f64).ceil() as u64` from
`ProductServiceImpl::get_all` (service.rs:41), under the IEEE 754 binary64
semantics of the three operations. -/
def total_pageF64 (total_data limit : Nat) : Nat :=
  (f64DivNat (f64OfNat total_data) (f64OfNat limit)).ceilNat

/-- `PaginationResponse` from `shared/dto/response.rs` (`u32`/`u64` fields as
`Nat`). -/
structure PaginationResponse where
  data : List Product
  page : Nat
  limit : Nat
  total_data : Nat
  total_page : Nat
deriving Repr, DecidableEq

/-- The response assembled by `ProductServiceImpl::get_all`
(service.rs:37-52) from the repository's result `(products, total_data)`:
`page` and `limit` are echoed from the request via `get_page`/`get_limit`,
and `total_page` is the f64 ceiling computation. -/
def get_all_response (q : PaginationQuery) (products : List Product)
    (total_data : Nat) : PaginationResponse :=
  { data := products
    page := q.get_page
    limit := q.get_limit
    total_data := total_data
    total_page := total_pageF64 total_data q.get_limit }

/-- The sort whitelist `allowed_sort_fields` (product_repository_impl.rs:38). -/
def allowed_sort_fields : List String :=
  ["name", "price", "created_at", "updated_at", "status"]

/-- The sort field actually interpolated into the query
(product_repository_impl.rs:40-43): the requested value when whitelisted,
otherwise `"created_at"`. -/
def sort_field (q : PaginationQuery) : String :=
  match q.sort with
  | some f => if allowed_sort_fields.contains f then f else "created_at"
  | none => "created_at"

/-- The sort direction keyword (product_repository_impl.rs:45-48): `ASC` for
`Some(Asc)`, `DESC` otherwise. -/
def sort_order_sql (q : PaginationQuery) : String :=
  match q.sort_order with
  | some .Asc => "ASC"
  | _ => "DESC"

/-- The fixed SELECT/JOIN prefix of the `find_all` query
(product_repository_impl.rs:50-88), whitespace normalized. -/
def find_all_select_part : String :=
  "SELECT p.*, COUNT(*) OVER() as total_count, " ++
  "COALESCE( JSON_AGG(DISTINCT pc.*) FILTER (WHERE pc.id IS NOT NULL), \x27[]\x27 ) as categories, " ++
  "COALESCE( JSON_AGG(DISTINCT pm.*) FILTER (WHERE pm.id IS NOT NULL), \x27[]\x27 ) as materials, " ++
  "COALESCE( JSON_AGG(DISTINCT pi.*) FILTER (WHERE pi.id IS NOT NULL), \x27[]\x27 ) as images " ++
  "FROM products p " ++
  "LEFT JOIN product_category_relations pcr ON p.id = pcr.product_id " ++
  "LEFT JOIN product_categories pc ON pcr.category_id = pc.id " ++
  "LEFT JOIN product_material_relations pmr ON p.id = pmr.product_id " ++
  "LEFT JOIN product_materials pm ON pmr.material_id = pm.id " ++
  "LEFT JOIN product_images pi ON p.id = pi.product_id "

/-- The search filter clause (product_repository_impl.rs:95-97), interpolated
only when a search term is present. -/
def find_all_where_clause : String :=
  "WHERE p.name ILIKE $3 OR p.material ILIKE $3 OR p.description ILIKE $3"

/-- The full SQL text produced by the `format!` call in `find_all`
(product_repository_impl.rs:50-103): the filter clause is included exactly
when `search` is present, and the sort field and direction are interpolated
into `ORDER BY p.{field} {order}`. -/
def build_find_all_sql (q : PaginationQuery) : String :=
  find_all_select_part ++
  (if q.search.isSome then find_all_where_clause else "") ++
  " GROUP BY p.id ORDER BY p." ++ sort_field q ++ " " ++ sort_order_sql q ++
  " LIMIT $1 OFFSET $2"

/-- `build_find_all_sql` with the three data-dependent pieces (filter
presence, sort field, sort direction) abstracted, for case analysis. -/
def assembled_find_all_sql (searchPresent : Bool) (field ord : String) : String :=
  find_all_select_part ++
  (if searchPresent then find_all_where_clause else "") ++
  " GROUP BY p.id ORDER BY p." ++ field ++ " " ++ ord ++
  " LIMIT $1 OFFSET $2"

/-- A value passed to `.bind(...)` on the `find_all` query. -/
inductive BindArg where
  | int (i : Nat)
  | optStr (s : Option String)
deriving Repr, DecidableEq

/-- The argument list bound to the `find_all` query, in bind order
(product_repository_impl.rs:104-106): limit, offset, and the optional search
pattern `%{search}%` (bound as NULL when absent — still a bound argument). -/
def find_all_binds (q : PaginationQuery) : List BindArg :=
  [.int q.get_limit, .int q.get_offset,
   .optStr (q.get_search.map (fun s => "%" ++ s ++ "%"))]

/-- State of the placeholder scanner: outside any placeholder, right after a
`$`, or inside a digit run with its accumulated value. -/
inductive ScanState where
  | plain
  | dollar
  | num (n : Nat)
deriving Repr, DecidableEq

/-- Scan a character stream for `$n` placeholders, emitting the index of each
completed digit run that follows a `$`. -/
def placeholderScan : ScanState → List Char → List Nat
  | s, [] =>
    match s with
    | .num n => [n]
    | _ => []
  | s, c :: rest =>
    match s with
    | .plain =>
      if c = '$' then placeholderScan .dollar rest else placeholderScan .plain rest
    | .dollar =>
      if c.isDigit then placeholderScan (.num (c.toNat - 48)) rest
      else if c = '$' then placeholderScan .dollar rest
      else placeholderScan .plain rest
    | .num n =>
      if c.isDigit then placeholderScan (.num (n * 10 + (c.toNat - 48))) rest
      else if c = '$' then n :: placeholderScan .dollar rest
      else n :: placeholderScan .plain rest

/-- All `$n` placeholder indices occurring in a SQL string, in order of
occurrence (with multiplicity). -/
def placeholderNums (s : String) : List Nat :=
  placeholderScan .plain s.toList

/-- Number of distinct `$n` placeholders in a SQL string. -/
def distinct_placeholder_count (s : String) : Nat :=
  (placeholderNums s).dedup.length

/-- Substring test by a single scan (equivalent to `List.IsInfix`, see
`containsSub_correct`). -/
def containsSub (pat : List Char) : List Char → Bool
  | [] => pat.isEmpty
  | c :: cs => pat.isPrefixOf (c :: cs) || containsSub pat cs

/-- SQL `LIKE` pattern matching (pattern, text), as Postgres evaluates the
interpolated `ILIKE` patterns: `%` matches any (possibly empty) sequence —
i.e. the rest of the pattern has to match some suffix of the text — `_`
matches any single character, a backslash escapes the following pattern
character, and any other character matches itself. -/
def likeMatch : List Char → List Char → Bool
  | [], cs => cs.isEmpty
  | p :: ps, cs =>
    if p = '%' then
      cs.tails.any (fun t => likeMatch ps t)
    else
      match cs with
      | [] => false
      | c :: cs' =>
        if p = '\\' then
          match ps with
          | [] => false
          | p2 :: ps' => p2 == c && likeMatch ps' cs'
        else if p = '_' then likeMatch ps cs'
        else p == c && likeMatch ps cs'

/-- `ILIKE`: case-insensitive `LIKE` — both sides are case-folded before
matching. -/
def ilike (txt pattern : String) : Bool :=
  likeMatch (pattern.toList.map Char.toLower) (txt.toList.map Char.toLower)

/-- The row predicate denoted by the `find_all` search filter
`WHERE p.name ILIKE $3 OR p.material ILIKE $3 OR p.description ILIKE $3`
with `$3 = %{search}%` (product_repository_impl.rs:36,95-97). -/
def row_matches_search (r : ProductRow) (search : String) : Bool :=
  let pat := "%" ++ search ++ "%"
  ilike r.name pat || ilike r.material pat || ilike r.description pat

/-- The filter predicate the spec describes: case-insensitive substring match
against name, free-text material, and description, combined with OR.
Modelled from the spec: this is the spec's wording, for comparison with
`row_matches_search` above. -/
def spec_search_match (r : ProductRow) (search : String) : Prop :=
  (search.toList.map Char.toLower) <:+: (r.name.toList.map Char.toLower) ∨
  (search.toList.map Char.toLower) <:+: (r.material.toList.map Char.toLower) ∨
  (search.toList.map Char.toLower) <:+: (r.description.toList.map Char.toLower)

instance (r : ProductRow) (s : String) : Decidable (spec_search_match r s) := by
  unfold spec_search_match; infer_instance

/-- Invariant of §3 of the spec: every product row has at least one category
relation row. -/
def EveryProductHasCategory (st : DBState) : Prop :=
  ∀ r ∈ st.products, ∃ rel ∈ st.category_rels, rel.1 = r.id

instance (st : DBState) : Decidable (EveryProductHasCategory st) := by
  unfold EveryProductHasCategory; infer_instance

/-- Fixture: a category row with id 1. -/
def exCategory : ProductCategory := ⟨1, "Category 1", 0, 0⟩

/-- Fixture: a product row with id 1. -/
def exRow : ProductRow := ⟨1, "Product 1", 100, "Test product", "ACTIVE", "", 0, 0⟩

/-- Fixture: an image row (id 5) belonging to product 1. -/
def exImage : ProductImage := ⟨5, 1, "old.png", 0, 0⟩

/-- Fixture: a store with one product (id 1) in one category (id 1) and one
image row. -/
def exState : DBState := ⟨[exRow], [exCategory], [], [(1, 1)], [], [exImage]⟩

/-- Fixture: an update payload whose only category id (99) references no
existing category; empty image list. -/
def exUpdateMissingCat : Product :=
  ⟨1, "Product 1b", 110, "changed", "ACTIVE", 0, 1, [99], [], [], [], []⟩

/-- Fixture: an update payload carrying one image. -/
def exUpdateWithImage : Product :=
  ⟨1, "Product 1c", 120, "changed", "ACTIVE", 0, 1, [1], [], [], [],
   [⟨7, 1, "new.png", 0, 0⟩]⟩

/-- Fixture: an update payload with an empty category id list. -/
def exUpdateNoCats : Product :=
  ⟨1, "Product 1d", 130, "changed", "ACTIVE", 0, 1, [], [], [], [], []⟩

/-- Fixture: an update payload with category id 1 and material id 3, no
images. -/
def exUpdateOk : Product :=
  ⟨1, "Product 1e", 140, "changed", "ACTIVE", 0, 1, [1], [3], [], [], []⟩

/-- Fixture: a create payload with the existing category id 1. -/
def exCreateOk : Product :=
  ⟨2, "Product 2", 70, "second", "NEW", 0, 2, [1], [], [], [], []⟩

/-- Fixture: a create payload whose category id 42 does not exist. -/
def exCreateMissingCat : Product :=
  ⟨3, "Product 3", 80, "third", "NEW", 0, 3, [42], [], [], [], []⟩

/-- Fixture: the SQL-injection sort value from the spec,
`'; DROP TABLE products;--`. -/
def exInjection : String := "\x27; DROP TABLE products;--"

/-- Fixture: a pagination request sorting by the injection string. -/
def exQuerySorted : PaginationQuery := ⟨some 1, some 10, none, some exInjection, none⟩

/-- Fixture: a pagination request with a search term. -/
def exQuerySearch : PaginationQuery := ⟨some 1, some 10, some "abc", none, none⟩

/-- Fixture: a product row named `abc`. -/
def exRowAbc : ProductRow := ⟨9, "abc", 5, "", "ACTIVE", "", 0, 0⟩

/-- Fixture: a pagination request with `limit = 1`. -/
def exQueryLimit1 : PaginationQuery := ⟨some 1, some 1, none, none, none⟩

/-- Fixture: a pagination request for page 3 with `limit = 2`. -/
def exQueryPage3 : PaginationQuery := ⟨some 3, some 2, none, none, none⟩

/-! ## Theorems -/

/-- Claim C7: a `create` call whose supplied `category_ids` is empty returns a
`Validation` error and the stored state is unchanged (the rejection happens
before any row is written). -/
theorem create_empty_category_ids_validation (st : DBState) (p : Product)
    (h : p.category_ids = []) :
    create st p =
      (st, .error (.Validation [("category_ids", ["At least one category is required"])])) := by
  simp [create, h]

/-- Witness for C7 at a concrete store and payload. -/
theorem create_empty_category_ids_validation_witness :
    exUpdateNoCats.category_ids = [] ∧
    create exState exUpdateNoCats =
      (exState, .error (.Validation [("category_ids", ["At least one category is required"])])) :=
  ⟨rfl, create_empty_category_ids_validation exState exUpdateNoCats rfl⟩

/-- Claim C8: `delete` is unconditional and idempotent — it succeeds for every
id (also for ids with no product row), a second delete of the same id succeeds
as well, and the second delete leaves the state of the first unchanged. -/
theorem delete_idempotent_unconditional (st : DBState) (pid : Nat) :
    (delete st pid).2 = .ok () ∧
    (delete (delete st pid).1 pid).2 = .ok () ∧
    (delete (delete st pid).1 pid).1 = (delete st pid).1 := by
  refine ⟨rfl, rfl, ?_⟩
  simp [delete, List.filter_filter]

/-- Claim C2 (code bug evaluation): an `update` carrying a non-empty image
list fails with a `Database` error — its image `INSERT` has six placeholders
but five bound values — and the prior state (including the old image rows)
survives unchanged. -/
theorem update_nonempty_images_database_error :
    update exState 1 exUpdateWithImage =
      (exState, .error (.Database
        "bind message supplies 5 parameters, but prepared statement requires 6")) ∧
    (exState.product_images = [exImage]) := by
  exact ⟨rfl, rfl⟩

/-- Claim C5: whenever `update` succeeds, the stored category and material
relation rows for the updated id are exactly the supplied `category_ids` and
`material_ids` — all prior rows for the id are deleted and the supplied sets
inserted in the same transaction. -/
theorem update_replaces_relation_sets (st : DBState) (pid : Nat) (p : Product)
    (h : (update st pid p).2.isOk = true) :
    (((update st pid p).1.category_rels.filter (fun rel => rel.1 == pid)).map
        (fun rel => rel.2) = p.category_ids) ∧
    (((update st pid p).1.material_rels.filter (fun rel => rel.1 == pid)).map
        (fun rel => rel.2) = p.material_ids) := by
  cases himg : p.images.isEmpty with
  | false => simp [update, himg, Except.isOk, Except.toBool] at h
  | true =>
    have hfilter : ∀ (l : List (Nat × Nat)) (ids : List Nat),
        ((l.filter (fun rel => rel.1 != pid) ++ ids.map (fun c => (pid, c))).filter
            (fun rel => rel.1 == pid)).map (fun rel => rel.2) = ids := by
      intro l ids
      rw [List.filter_append, List.filter_filter]
      have h1 : l.filter (fun rel => (rel.1 == pid) && (rel.1 != pid)) = [] := by
        apply List.filter_eq_nil_iff.mpr
        intro rel _
        by_cases hbe : rel.1 = pid <;> simp [hbe]
      have h2 : (ids.map (fun c => (pid, c))).filter (fun rel => rel.1 == pid)
          = ids.map (fun c => (pid, c)) := by
        apply List.filter_eq_self.mpr
        intro rel hrel
        rcases List.mem_map.mp hrel with ⟨c, _, rfl⟩
        simp
      rw [h1, h2, List.nil_append, List.map_map]
      simp
    constructor
    · simpa [update, himg] using hfilter st.category_rels p.category_ids
    · simpa [update, himg] using hfilter st.material_rels p.material_ids

/-- Witness for C5: a successful concrete update replaces the relation rows
with the supplied category and material id sets. -/
theorem update_replaces_relation_sets_witness :
    ((update exState 1 exUpdateOk).2.isOk = true) ∧
    ((((update exState 1 exUpdateOk).1.category_rels.filter
        (fun rel => rel.1 == 1)).map (fun rel => rel.2) = exUpdateOk.category_ids) ∧
     (((update exState 1 exUpdateOk).1.material_rels.filter
        (fun rel => rel.1 == 1)).map (fun rel => rel.2) = exUpdateOk.material_ids)) :=
  ⟨by decide, update_replaces_relation_sets exState 1 exUpdateOk (by decide)⟩

/-- A `find_by_id` read succeeds whenever some product row carries the id. -/
theorem findById_isOk_of_mem (st : DBState) (pid : Nat)
    (h : ∃ r ∈ st.products, r.id = pid) : (findById st pid).isOk = true := by
  unfold findById
  rcases h with ⟨r, hr, hid⟩
  cases hf : st.products.find? (fun r => r.id == pid) with
  | some _ => simp [Except.isOk, Except.toBool]
  | none =>
    exfalso
    have := List.find?_eq_none.mp hf r hr
    simp [hid] at this

/-- Claim C3 (counterexample): starting from a store satisfying the
every-product-has-a-category invariant, an `update` supplying an empty
`category_ids` list succeeds and leaves the product with zero category
relation rows — the update path performs no non-empty check. -/
theorem update_empty_category_ids_breaks_invariant :
    EveryProductHasCategory exState ∧
    (update exState 1 exUpdateNoCats).2.isOk = true ∧
    ¬ EveryProductHasCategory (update exState 1 exUpdateNoCats).1 := by
  decide

/-- Claim C3 (amended): the invariant that every product row has a category
relation row is preserved by every `create` (successful or not), by every
`delete`, and by every `update` whose supplied `category_ids` is non-empty.
(An update with an empty `category_ids` list can break it.) -/
theorem category_invariant_preservation (st : DBState) (p q : Product) (pid : Nat)
    (hInv : EveryProductHasCategory st) :
    EveryProductHasCategory (create st p).1 ∧
    EveryProductHasCategory (delete st pid).1 ∧
    (q.category_ids ≠ [] → EveryProductHasCategory (update st pid q).1) := by
  refine ⟨?_, ?_, ?_⟩
  · unfold create
    by_cases hemp : p.category_ids.isEmpty = true
    · rw [if_pos hemp]
      exact hInv
    · rw [if_neg hemp]
      by_cases hcnt :
          (st.product_categories.filter (fun c => p.category_ids.contains c.id)).length
            ≠ p.category_ids.length
      case pos =>
        rw [if_pos hcnt]
        exact hInv
      case neg =>
        have hne : p.category_ids ≠ [] := by
          intro h
          exact hemp (by simp [h])
        rw [if_neg hcnt]
        intro r hr
        rcases List.mem_append.mp hr with h | h
        · rcases hInv r h with ⟨rel, hm, he⟩
          exact ⟨rel, List.mem_append_left _ hm, he⟩
        · obtain ⟨c, hc⟩ := List.exists_mem_of_ne_nil _ hne
          have hrid : r.id = p.id := by
            rcases List.mem_singleton.mp h with rfl
            rfl
          exact ⟨(p.id, c),
            List.mem_append_right _ (List.mem_map.mpr ⟨c, hc, rfl⟩), by rw [hrid]⟩
  · intro r hr
    have hr' : r ∈ st.products := List.mem_of_mem_filter hr
    simpa [delete] using hInv r hr'
  · intro hq
    by_cases himg : q.images.isEmpty = true
    · simp only [update, himg, ite_true]
      intro r hr
      rcases List.mem_map.mp hr with ⟨r0, hr0, rfl⟩
      by_cases hcase : r0.id = pid
      · obtain ⟨c, hc⟩ := List.exists_mem_of_ne_nil _ hq
        refine ⟨(pid, c), List.mem_append_right _ (List.mem_map.mpr ⟨c, hc, rfl⟩), ?_⟩
        simp [hcase]
      · rcases hInv r0 hr0 with ⟨rel, hm, he⟩
        refine ⟨rel, List.mem_append_left _ (List.mem_filter.mpr ⟨hm, ?_⟩), ?_⟩
        · simp [he, hcase]
        · simp [hcase, he]
    · simpa [update, himg] using hInv

/-- Witness for C3 (amended) at concrete store and payloads. -/
theorem category_invariant_preservation_witness :
    EveryProductHasCategory exState ∧
    (EveryProductHasCategory (create exState exCreateOk).1 ∧
     EveryProductHasCategory (delete exState 7).1 ∧
     (exUpdateOk.category_ids ≠ [] → EveryProductHasCategory (update exState 7 exUpdateOk).1)) :=
  ⟨by decide, category_invariant_preservation exState exCreateOk exUpdateOk 7 (by decide)⟩

/-- Claim C1 (counterexample): an `update` whose supplied category id (99)
references no existing category does not fail with `NotFound`: it succeeds,
and the dangling relation row `(1, 99)` is persisted. -/
theorem update_missing_category_not_notfound :
    99 ∉ exState.product_categories.map (fun c => c.id) ∧
    (update exState 1 exUpdateMissingCat).2.isOk = true ∧
    (1, 99) ∈ (update exState 1 exUpdateMissingCat).1.category_rels := by
  decide

/-- Claim C1 (amended): `create` rejects a payload containing a category id
that references no existing category with `NotFound` and leaves the state
unchanged (given the category table's ids are distinct, as its primary key
guarantees); `update` performs no such check — on an existing product id and
an empty image list it succeeds rather than failing with `NotFound`. -/
theorem missing_category_create_notfound_update_unchecked :
    (∀ (st : DBState) (p : Product),
        (st.product_categories.map (fun c => c.id)).Nodup →
        (∃ cid ∈ p.category_ids, cid ∉ st.product_categories.map (fun c => c.id)) →
        create st p = (st, .error (.NotFound "One or more categories not found"))) ∧
    (∀ (st : DBState) (pid : Nat) (p : Product),
        (st.products.any (fun r => r.id == pid)) = true → p.images = [] →
        (update st pid p).2.isOk = true) := by
  constructor
  · intro st p hN hx
    rcases hx with ⟨x, hxL, hxT⟩
    have hne : p.category_ids ≠ [] := by
      intro h
      rw [h] at hxL
      exact absurd hxL (List.not_mem_nil x)
    have hemp : ¬ p.category_ids.isEmpty = true := by
      simp [List.isEmpty_iff, hne]
    have hcount :
        (st.product_categories.filter (fun c => p.category_ids.contains c.id)).length
          < p.category_ids.length := by
      have e1 : ((st.product_categories.map (fun c => c.id)).filter
            (fun i => p.category_ids.contains i))
          = (st.product_categories.filter (fun c => p.category_ids.contains c.id)).map
              (fun c => c.id) :=
        List.filter_map (fun c : ProductCategory => c.id) st.product_categories
      have e2 : (st.product_categories.filter (fun c => p.category_ids.contains c.id)).length
          = ((st.product_categories.map (fun c => c.id)).filter
              (fun i => p.category_ids.contains i)).length := by
        rw [e1, List.length_map]
      rw [e2]
      have hnd : ((st.product_categories.map (fun c => c.id)).filter
          (fun i => p.category_ids.contains i)).Nodup := hN.filter _
      rw [← List.toFinset_card_of_nodup hnd, List.toFinset_filter]
      have hsub : (st.product_categories.map (fun c => c.id)).toFinset.filter
            (fun i => p.category_ids.contains i = true)
          ⊆ p.category_ids.toFinset.erase x := by
        intro y hy
        rw [Finset.mem_filter, List.mem_toFinset] at hy
        rcases hy with ⟨hyT, hyL⟩
        rw [Finset.mem_erase, List.mem_toFinset]
        refine ⟨fun h => hxT (h ▸ hyT), by simpa using hyL⟩
      calc ((st.product_categories.map (fun c => c.id)).toFinset.filter
              (fun i => p.category_ids.contains i = true)).card
          ≤ (p.category_ids.toFinset.erase x).card := Finset.card_le_card hsub
        _ < p.category_ids.toFinset.card :=
            Finset.card_erase_lt_of_mem (List.mem_toFinset.mpr hxL)
        _ ≤ p.category_ids.length := List.toFinset_card_le _
    unfold create
    rw [if_neg hemp, if_pos (Nat.ne_of_lt hcount)]
  · intro st pid p hany himg
    have hImgE : p.images.isEmpty = true := by rw [himg]; rfl
    simp only [update, hImgE, ite_true]
    apply findById_isOk_of_mem
    rcases List.any_eq_true.mp hany with ⟨r0, hr0, hbeq⟩
    refine ⟨_, List.mem_map_of_mem _ hr0, ?_⟩
    have h0 : r0.id = pid := by simpa using hbeq
    by_cases hx : r0.id = pid <;> simp [hx, h0]

/-- Witness for C1 (amended): both halves at concrete inputs. -/
theorem missing_category_create_notfound_update_unchecked_witness :
    ((exState.product_categories.map (fun c => c.id)).Nodup ∧
     (∃ cid ∈ exCreateMissingCat.category_ids,
        cid ∉ exState.product_categories.map (fun c => c.id)) ∧
     create exState exCreateMissingCat =
       (exState, .error (.NotFound "One or more categories not found"))) ∧
    ((exState.products.any (fun r => r.id == 1)) = true ∧
     exUpdateMissingCat.images = [] ∧
     (update exState 1 exUpdateMissingCat).2.isOk = true) :=
  ⟨⟨by decide, by decide,
    missing_category_create_notfound_update_unchecked.1 exState exCreateMissingCat
      (by decide) (by decide)⟩,
   ⟨by decide, rfl,
    missing_category_create_notfound_update_unchecked.2 exState 1 exUpdateMissingCat
      (by decide) rfl⟩⟩

/-- The interpolated sort field is always one of the five whitelisted column
names (non-whitelisted requests fall back to `created_at`, itself a member). -/
theorem sort_field_mem (q : PaginationQuery) : sort_field q ∈ allowed_sort_fields := by
  unfold sort_field
  cases q.sort with
  | none => decide
  | some f =>
    show (if allowed_sort_fields.contains f = true then f else "created_at")
        ∈ allowed_sort_fields
    by_cases h : allowed_sort_fields.contains f = true
    · rw [if_pos h]
      exact List.elem_iff.mp h
    · rw [if_neg h]
      decide

/-- The interpolated sort direction is `ASC` or `DESC`. -/
theorem sort_order_sql_cases (q : PaginationQuery) :
    sort_order_sql q = "ASC" ∨ sort_order_sql q = "DESC" := by
  unfold sort_order_sql
  cases q.sort_order with
  | none => exact Or.inr rfl
  | some o =>
    cases o with
    | Asc => exact Or.inl rfl
    | Desc => exact Or.inr rfl

/-- `build_find_all_sql` factors through `assembled_find_all_sql`. -/
theorem build_eq_assembled (q : PaginationQuery) :
    build_find_all_sql q
      = assembled_find_all_sql q.search.isSome (sort_field q) (sort_order_sql q) := rfl

/-- The generated SQL has three distinct placeholders with a search filter and
two without, for every whitelisted sort field and direction. -/
theorem placeholder_count_assembled :
    ∀ w ∈ [true, false], ∀ f ∈ allowed_sort_fields, ∀ o ∈ ["ASC", "DESC"],
      distinct_placeholder_count (assembled_find_all_sql w f o)
        = if w then 3 else 2 := by
  decide

/-- Claim C4: the sort field used in the generated query is the requested one
exactly when it is whitelisted; any other requested value (e.g. a
SQL-injection string) falls back to `created_at` and yields a query and bind
list identical to those of a request with no sort at all — so it cannot
error differently. -/
theorem sort_whitelist_fallback (q : PaginationQuery) (s : String) (hq : q.sort = some s) :
    (s ∈ allowed_sort_fields → sort_field q = s) ∧
    (s ∉ allowed_sort_fields →
      sort_field q = "created_at" ∧
      build_find_all_sql q = build_find_all_sql { q with sort := none } ∧
      find_all_binds q = find_all_binds { q with sort := none }) := by
  constructor
  · intro hmem
    unfold sort_field
    rw [hq]
    show (if allowed_sort_fields.contains s = true then s else "created_at") = s
    rw [if_pos (show allowed_sort_fields.contains s = true from List.elem_iff.mpr hmem)]
  · intro hnot
    have hcontains : ¬ allowed_sort_fields.contains s = true :=
      fun h => hnot (List.elem_iff.mp h)
    have hf : sort_field q = "created_at" := by
      unfold sort_field
      rw [hq]
      show (if allowed_sort_fields.contains s = true then s else "created_at") = "created_at"
      rw [if_neg hcontains]
    refine ⟨hf, ?_, rfl⟩
    rw [build_eq_assembled, build_eq_assembled, hf]
    rfl

/-- Witness for C4 with the injection string from the spec. -/
theorem sort_whitelist_fallback_witness :
    exQuerySorted.sort = some exInjection ∧
    ((exInjection ∈ allowed_sort_fields → sort_field exQuerySorted = exInjection) ∧
     (exInjection ∉ allowed_sort_fields →
       sort_field exQuerySorted = "created_at" ∧
       build_find_all_sql exQuerySorted = build_find_all_sql { exQuerySorted with sort := none } ∧
       find_all_binds exQuerySorted = find_all_binds { exQuerySorted with sort := none })) :=
  ⟨rfl, sort_whitelist_fallback exQuerySorted exInjection rfl⟩

/-- Claim C10: `find_all` always binds exactly three arguments, and the
generated SQL's number of distinct placeholders equals that bind count if and
only if a search term is present (three placeholders with search, two
without). -/
theorem find_all_bind_placeholder_match (q : PaginationQuery) :
    (find_all_binds q).length = 3 ∧
    (((find_all_binds q).length = distinct_placeholder_count (build_find_all_sql q))
      ↔ q.search.isSome = true) := by
  refine ⟨rfl, ?_⟩
  have hb : (find_all_binds q).length = 3 := rfl
  have hw : q.search.isSome ∈ [true, false] := by
    cases q.search.isSome <;> decide
  have hcount :
      distinct_placeholder_count (build_find_all_sql q)
        = if q.search.isSome then 3 else 2 := by
    rcases sort_order_sql_cases q with ho | ho <;>
      · rw [build_eq_assembled q, ho]
        exact placeholder_count_assembled q.search.isSome hw
          (sort_field q) (sort_field_mem q) _ (by decide)
  rw [hb, hcount]
  cases hs : q.search.isSome <;> simp

/-- A non-metacharacter pattern head fails against an empty text. -/
theorem likeMatch_lit_nil (a : Char) (ps : List Char) (ha1 : a ≠ '%') :
    likeMatch (a :: ps) [] = false := by
  rw [likeMatch.eq_def]
  simp [ha1]

/-- A non-metacharacter pattern head matches the text head literally. -/
theorem likeMatch_lit_cons (a : Char) (ps : List Char) (ha1 : a ≠ '%') (ha2 : a ≠ '\\')
    (ha3 : a ≠ '_') (c : Char) (cs : List Char) :
    likeMatch (a :: ps) (c :: cs) = (a == c && likeMatch ps cs) := by
  rw [likeMatch.eq_def]
  simp [ha1, ha2, ha3]

/-- A leading `%` lets the rest of the pattern match any suffix of the text. -/
theorem likeMatch_percent_cons (ps cs : List Char) :
    likeMatch ('%' :: ps) cs = true ↔ ∃ t, t <:+ cs ∧ likeMatch ps t = true := by
  rw [likeMatch.eq_def]
  simp [List.any_eq_true, List.mem_tails]

/-- A metacharacter-free pattern followed by a single `%` matches a text
exactly when the pattern is a prefix of the text. -/
theorem likeMatch_literal_percent (s : List Char)
    (hs : ∀ c ∈ s, c ≠ '%' ∧ c ≠ '_' ∧ c ≠ '\\') (cs : List Char) :
    likeMatch (s ++ ['%']) cs = true ↔ s <+: cs := by
  induction s generalizing cs with
  | nil =>
    simp only [List.nil_append, List.nil_prefix, iff_true]
    exact (likeMatch_percent_cons [] cs).mpr ⟨[], List.nil_suffix, rfl⟩
  | cons a s' ih =>
    have ha := hs a (List.mem_cons_self a s')
    have hs' : ∀ c ∈ s', c ≠ '%' ∧ c ≠ '_' ∧ c ≠ '\\' :=
      fun c hc => hs c (List.mem_cons_of_mem a hc)
    cases cs with
    | nil =>
      rw [List.cons_append, likeMatch_lit_nil a _ ha.1]
      simp
    | cons c cs' =>
      rw [List.cons_append, likeMatch_lit_cons a _ ha.1 ha.2.2 ha.2.1 c cs']
      simp only [Bool.and_eq_true, beq_iff_eq, List.cons_prefix_cons]
      rw [ih hs' cs']

/-- A pattern `%s%` with `s` metacharacter-free matches a text exactly when
`s` is an infix of the text. -/
theorem likeMatch_between_percents (s : List Char)
    (hs : ∀ c ∈ s, c ≠ '%' ∧ c ≠ '_' ∧ c ≠ '\\') (cs : List Char) :
    likeMatch ('%' :: (s ++ ['%'])) cs = true ↔ s <:+: cs := by
  rw [likeMatch_percent_cons, List.infix_iff_prefix_suffix]
  constructor
  · rintro ⟨t, ht, hm⟩
    exact ⟨t, (likeMatch_literal_percent s hs t).mp hm, ht⟩
  · rintro ⟨t, hpre, hsuf⟩
    exact ⟨t, hsuf, (likeMatch_literal_percent s hs t).mpr hpre⟩

/-- The lowered `%{search}%` pattern is `%` + lowered search + `%`. -/
theorem pattern_toList_lower (s : String) :
    ("%" ++ s ++ "%").toList.map Char.toLower
      = '%' :: (s.toList.map Char.toLower ++ ['%']) := by
  show ((("%" ++ s) ++ "%").data.map Char.toLower) = _
  rw [String.data_append, String.data_append]
  simp [String.toList, show Char.toLower '%' = '%' from rfl]

/-- `ILIKE` against the pattern `%s%`, for metacharacter-free `s`, is the
case-insensitive substring test. -/
theorem ilike_substring_iff (txt s : String)
    (hs : ∀ c ∈ s.toList.map Char.toLower, c ≠ '%' ∧ c ≠ '_' ∧ c ≠ '\\') :
    ilike txt ("%" ++ s ++ "%") = true
      ↔ (s.toList.map Char.toLower) <:+: (txt.toList.map Char.toLower) := by
  unfold ilike
  rw [show ("%" ++ s ++ "%").toList = ("%" ++ s ++ "%").toList from rfl]
  rw [pattern_toList_lower]
  exact likeMatch_between_percents _ hs _

/-- The where clause is a substring of the assembled SQL whenever the filter
is present. -/
theorem where_clause_infix_assembled (f o : String) :
    find_all_where_clause.toList <:+: (assembled_find_all_sql true f o).toList := by
  unfold assembled_find_all_sql
  refine ⟨find_all_select_part.toList,
    (" GROUP BY p.id ORDER BY p." ++ f ++ " " ++ o ++ " LIMIT $1 OFFSET $2").toList, ?_⟩
  simp [String.toList]

/-- `containsSub` decides `List.IsInfix`. -/
theorem containsSub_correct (pat cs : List Char) :
    containsSub pat cs = true ↔ pat <:+: cs := by
  induction cs with
  | nil =>
    simp only [containsSub, List.isEmpty_iff, List.infix_nil]
  | cons c cs ih =>
    simp only [containsSub, Bool.or_eq_true, List.isPrefixOf_iff_prefix, ih,
      List.infix_cons_iff]

/-- Without a search term the assembled SQL contains no `ILIKE` at all, for
every whitelisted sort field and direction. -/
theorem no_search_no_ilike_assembled :
    ∀ f ∈ allowed_sort_fields, ∀ o ∈ ["ASC", "DESC"],
      ¬ ("ILIKE".toList <:+: (assembled_find_all_sql false f o).toList) := by
  have h : ∀ f ∈ allowed_sort_fields, ∀ o ∈ ["ASC", "DESC"],
      containsSub "ILIKE".toList (assembled_find_all_sql false f o).toList = false := by
    decide
  intro f hf o ho hinf
  have := (containsSub_correct _ _).mpr hinf
  rw [h f hf o ho] at this
  exact Bool.false_ne_true this

/-- Claim C9 (counterexample): the search filter is a `LIKE` pattern match on
the unescaped term, not a substring match — the term `a_c` matches the
product named `abc` although `a_c` is not a substring of it. -/
theorem search_underscore_matches_non_substring :
    row_matches_search exRowAbc "a_c" = true ∧ ¬ spec_search_match exRowAbc "a_c" := by
  decide

/-- Claim C9 (amended): when `search` is absent the generated query contains
no `ILIKE` filter at all; when it is present the three-field OR filter clause
is part of the query, and the filter's predicate is the case-insensitive
`LIKE` match of `%term%` against name, free-text material, and description —
which coincides with case-insensitive substring matching exactly when the
term contains no `LIKE` metacharacter (`%`, `_`, `\`). -/
theorem search_filter_semantics :
    (∀ q : PaginationQuery, q.search = none →
      ¬ ("ILIKE".toList <:+: (build_find_all_sql q).toList)) ∧
    (∀ q : PaginationQuery, q.search.isSome = true →
      find_all_where_clause.toList <:+: (build_find_all_sql q).toList) ∧
    (∀ (r : ProductRow) (s : String),
      (∀ c ∈ s.toList.map Char.toLower, c ≠ '%' ∧ c ≠ '_' ∧ c ≠ '\\') →
      (row_matches_search r s = true ↔ spec_search_match r s)) := by
  refine ⟨?_, ?_, ?_⟩
  · intro q hq
    have hw : q.search.isSome = false := by rw [hq]; rfl
    rw [build_eq_assembled q, hw]
    exact no_search_no_ilike_assembled (sort_field q) (sort_field_mem q)
      (sort_order_sql q)
      (by rcases sort_order_sql_cases q with h | h <;> rw [h] <;> decide)
  · intro q hq
    rw [build_eq_assembled q, hq]
    exact where_clause_infix_assembled _ _
  · intro r s hs
    unfold row_matches_search
    simp only [Bool.or_eq_true]
    rw [ilike_substring_iff r.name s hs, ilike_substring_iff r.material s hs,
      ilike_substring_iff r.description s hs, or_assoc]
    exact Iff.rfl

/-- Witness for C9 (amended) at concrete queries, row and term. -/
theorem search_filter_semantics_witness :
    (exQuerySorted.search = none ∧
      ¬ ("ILIKE".toList <:+: (build_find_all_sql exQuerySorted).toList)) ∧
    (exQuerySearch.search.isSome = true ∧
      find_all_where_clause.toList <:+: (build_find_all_sql exQuerySearch).toList) ∧
    ((∀ c ∈ "ab".toList.map Char.toLower, c ≠ '%' ∧ c ≠ '_' ∧ c ≠ '\\') ∧
      (row_matches_search exRowAbc "ab" = true ↔ spec_search_match exRowAbc "ab")) :=
  ⟨⟨rfl, search_filter_semantics.1 exQuerySorted rfl⟩,
   ⟨rfl, search_filter_semantics.2.1 exQuerySearch rfl⟩,
   ⟨by decide, search_filter_semantics.2.2 exRowAbc "ab" (by decide)⟩⟩

/-- Existence of a last index at which a decidable predicate still holds. -/
theorem exists_last_true (P : Nat → Prop) [DecidablePred P] (n : Nat) (h0 : P 0)
    (hn : ¬ P n) : ∃ i < n, P i ∧ ¬ P (i + 1) := by
  induction n with
  | zero => exact absurd h0 hn
  | succ n ih =>
    by_cases hPn : P n
    · exact ⟨n, Nat.lt_succ_self n, hPn, hn⟩
    · obtain ⟨i, hi, h⟩ := ih hPn
      exact ⟨i, Nat.lt_succ_of_lt hi, h⟩

/-- `divExp` returns an exponent satisfying its bracket condition, for
positive inputs in `u64` range. -/
theorem divExp_cond (a b : Nat) (ha : 1 ≤ a) (ha' : a < 2 ^ 64) (hb : 1 ≤ b)
    (hb' : b < 2 ^ 64) :
    ∃ j : Nat, j < 129 ∧ divExp a b = (j : Int) - 64 ∧ divExpCond a b j = true := by
  have hex : ∃ i < 128, (b * 2 ^ i ≤ a * 2 ^ 64) ∧ ¬ (b * 2 ^ (i + 1) ≤ a * 2 ^ 64) := by
    apply exists_last_true (fun i => b * 2 ^ i ≤ a * 2 ^ 64) 128
    · have h1 : b * 2 ^ 0 = b := by ring
      have h2 : (2:Nat) ^ 64 ≤ a * 2 ^ 64 := Nat.le_mul_of_pos_left _ ha
      omega
    · intro hcon
      have h1 : a * 2 ^ 64 < 2 ^ 64 * 2 ^ 64 := by
        exact (Nat.mul_lt_mul_right (by positivity : (0:Nat) < 2 ^ 64)).mpr ha'
      have h2 : (2:Nat) ^ 64 * 2 ^ 64 = 2 ^ 128 := by norm_num
      have h3 : (2:Nat) ^ 128 ≤ b * 2 ^ 128 := Nat.le_mul_of_pos_left _ hb
      omega
  obtain ⟨i, hi, hP, hnP⟩ := hex
  have hcond : divExpCond a b i = true := by
    unfold divExpCond
    rw [Bool.and_eq_true]
    constructor
    · exact decide_eq_true hP
    · exact decide_eq_true (by omega)
  have hmem : i ∈ List.range 129 := List.mem_range.mpr (by omega)
  have hsome : ((List.range 129).find? (fun i => divExpCond a b i)).isSome := by
    rw [List.find?_isSome]
    exact ⟨i, hmem, hcond⟩
  obtain ⟨j, hj⟩ := Option.isSome_iff_exists.mp hsome
  have hjc : divExpCond a b j = true := List.find?_some hj
  have hjmem : j ∈ List.range 129 := List.mem_of_find?_eq_some hj
  refine ⟨j, List.mem_range.mp hjmem, ?_, hjc⟩
  unfold divExp
  rw [hj]
  rfl

/-- `rdiv` is exact division when the divisor divides the numerator. -/
theorem rdiv_exact (U D : Nat) (hD : 1 ≤ D) (h : D ∣ U) : rdiv U D = U / D := by
  unfold rdiv
  have hz : U % D = 0 := Nat.mod_eq_zero_of_dvd h
  rw [if_pos (by omega)]

/-- `rdiv U D` is within half a unit of `U / D`, in integer form. -/
theorem rdiv_bounds (U D : Nat) (hD : 1 ≤ D) :
    2 * U ≤ 2 * (D * rdiv U D) + D ∧ 2 * (D * rdiv U D) ≤ 2 * U + D := by
  have hmod := Nat.div_add_mod U D
  have hlt : U % D < D := Nat.mod_lt _ (by omega)
  unfold rdiv
  have hq1 : D * (U / D + 1) = D * (U / D) + D := by ring
  by_cases h1 : 2 * (U % D) < D
  · rw [if_pos h1]
    set x := D * (U / D)
    omega
  · rw [if_neg h1]
    by_cases h2 : D < 2 * (U % D)
    · rw [if_pos h2]
      rw [hq1]
      set x := D * (U / D)
      omega
    · rw [if_neg h2]
      by_cases h3 : U / D % 2 = 0
      · rw [if_pos h3]
        set x := D * (U / D)
        omega
      · rw [if_neg h3]
        rw [hq1]
        set x := D * (U / D)
        omega

/-- Ceiling division of an exact multiple. -/
theorem ceil_div_exact (P k : Nat) (hP : 1 ≤ P) : (k * P + P - 1) / P = k := by
  have h1 : k * P + P - 1 = (P - 1) + k * P := by
    have := Nat.one_le_iff_ne_zero.mp hP
    set x := k * P
    omega
  rw [h1, Nat.add_mul_div_right _ _ (by omega : 0 < P), Nat.div_eq_of_lt (by omega)]
  omega

/-- Ceiling division of a value strictly above one multiple and at most the
next. -/
theorem ceil_div_of_between (P k m : Nat) (hP : 1 ≤ P) (h1 : k * P < m)
    (h2 : m ≤ (k + 1) * P) : (m + P - 1) / P = k + 1 := by
  have hk1 : (k + 1) * P = k * P + P := by ring
  have ht : ∃ t, 1 ≤ t ∧ t ≤ P ∧ m = k * P + t := by
    set x := k * P
    exact ⟨m - x, by omega, by omega, by omega⟩
  obtain ⟨t, ht1, ht2, rfl⟩ := ht
  have h3 : k * P + t + P - 1 = (t + P - 1) + k * P := by
    set x := k * P
    omega
  rw [h3, Nat.add_mul_div_right _ _ (by omega : 0 < P)]
  have h4 : (t + P - 1) / P = 1 := by
    apply Nat.div_eq_of_lt_le <;> omega
  omega

/-- The f64 total-page computation agrees with exact ceiling division for
every `total_data < 2^52` and every `u32` limit `≥ 1`. -/
theorem total_pageF64_eq (N L : Nat) (hN : N < 2 ^ 52) (hL1 : 1 ≤ L) (hL2 : L < 2 ^ 32) :
    total_pageF64 N L = (N + L - 1) / L := by
  rcases Nat.eq_zero_or_pos N with rfl | hN1
  · have h0 : f64OfNat 0 = 0 := by
      unfold f64OfNat
      rw [if_pos (by positivity)]
    unfold total_pageF64
    rw [h0]
    have hz : f64DivNat 0 (f64OfNat L) = ⟨0, 0⟩ := by
      unfold f64DivNat
      rw [if_pos rfl]
    rw [hz]
    have hc : F64.ceilNat ⟨0, 0⟩ = 0 := rfl
    rw [hc, Nat.div_eq_of_lt (by omega)]
  · have h5253 : (2:Nat) ^ 52 ≤ 2 ^ 53 := by norm_num
    have h3253 : (2:Nat) ^ 32 ≤ 2 ^ 53 := by norm_num
    have h5264 : (2:Nat) ^ 52 ≤ 2 ^ 64 := by norm_num
    have h3264 : (2:Nat) ^ 32 ≤ 2 ^ 64 := by norm_num
    have hfa : f64OfNat N = N := by
      unfold f64OfNat
      rw [if_pos (by omega)]
    have hfb : f64OfNat L = L := by
      unfold f64OfNat
      rw [if_pos (by omega)]
    unfold total_pageF64
    rw [hfa, hfb]
    obtain ⟨j, hj129, hdiv, hcond⟩ := divExp_cond N L (by omega) (by omega) hL1 (by omega)
    unfold divExpCond at hcond
    rw [Bool.and_eq_true, decide_eq_true_eq, decide_eq_true_eq] at hcond
    obtain ⟨hc1, hc2⟩ := hcond
    have hj116 : j < 116 := by
      by_contra hcon
      push_neg at hcon
      have e1 : (2:Nat) ^ 116 ≤ 2 ^ j := Nat.pow_le_pow_right (by omega) hcon
      have e2 : (2:Nat) ^ j ≤ L * 2 ^ j := Nat.le_mul_of_pos_left _ hL1
      have e3 : N * 2 ^ 64 < 2 ^ 52 * 2 ^ 64 :=
        (Nat.mul_lt_mul_right (by positivity : (0:Nat) < 2 ^ 64)).mpr hN
      have e4 : (2:Nat) ^ 52 * 2 ^ 64 = 2 ^ 116 := by norm_num
      omega
    unfold f64DivNat
    rw [if_neg (by omega), hdiv]
    rw [if_pos (by omega : (j:Int) - 64 ≤ 52)]
    have hE : ((52:Int) - ((j:Int) - 64)).toNat = 116 - j := by omega
    rw [hE]
    simp only [F64.ceilNat]
    rw [if_neg (by omega : ¬ (0:Int) ≤ (j:Int) - 64 - 52)]
    have hE2 : (-((j:Int) - 64 - 52)).toNat = 116 - j := by omega
    rw [hE2]
    have hPpos : 1 ≤ (2:Nat) ^ (116 - j) := Nat.one_le_two_pow
    have hLP : L < 2 ^ (116 - j) := by
      have e3 : N * 2 ^ 64 < 2 ^ 116 := by
        calc N * 2 ^ 64 < 2 ^ 52 * 2 ^ 64 :=
              (Nat.mul_lt_mul_right (by positivity : (0:Nat) < 2 ^ 64)).mpr hN
          _ = 2 ^ 116 := by norm_num
      have h1 : L * 2 ^ j < 2 ^ 116 := lt_of_le_of_lt hc1 e3
      have h2 : (2:Nat) ^ 116 = 2 ^ (116 - j) * 2 ^ j := by
        rw [← pow_add]
        congr 1
        omega
      rw [h2] at h1
      exact Nat.lt_of_mul_lt_mul_right h1
    by_cases hdvd : L ∣ N
    · obtain ⟨k, hk⟩ := hdvd
      have hmval : rdiv (N * 2 ^ (116 - j)) L = k * 2 ^ (116 - j) := by
        have hdvd2 : L ∣ N * 2 ^ (116 - j) := ⟨k * 2 ^ (116 - j), by rw [hk]; ring⟩
        rw [rdiv_exact _ _ hL1 hdvd2, hk,
          show L * k * 2 ^ (116 - j) = (k * 2 ^ (116 - j)) * L by ring]
        exact Nat.mul_div_cancel _ (by omega)
      rw [hmval, ceil_div_exact _ _ hPpos, hk, show L * k = k * L by ring,
        ceil_div_exact _ _ hL1]
    · have hNsplit : N = L * (N / L) + N % L := (Nat.div_add_mod N L).symm
      have hrr1 : 1 ≤ N % L := by
        rcases Nat.eq_zero_or_pos (N % L) with h | h
        · exact absurd (Nat.dvd_of_mod_eq_zero h) hdvd
        · exact h
      have hrr2 : N % L < L := Nat.mod_lt _ (by omega)
      have hRHS : (N + L - 1) / L = N / L + 1 := by
        apply ceil_div_of_between L (N / L) N hL1
        · have hcomm : N / L * L = L * (N / L) := by ring
          omega
        · have hcomm : (N / L + 1) * L = L * (N / L) + L := by ring
          omega
      rw [hRHS]
      obtain ⟨hR2, hR1⟩ := rdiv_bounds (N * 2 ^ (116 - j)) L hL1
      set M := rdiv (N * 2 ^ (116 - j)) L with hM
      have hexp : N * 2 ^ (116 - j)
          = L * (N / L * 2 ^ (116 - j)) + N % L * 2 ^ (116 - j) := by
        calc N * 2 ^ (116 - j) = (L * (N / L) + N % L) * 2 ^ (116 - j) := by
              rw [← hNsplit]
          _ = L * (N / L * 2 ^ (116 - j)) + N % L * 2 ^ (116 - j) := by ring
      rw [hexp] at hR1 hR2
      apply ceil_div_of_between _ _ _ hPpos
      · have hrrP : 2 ^ (116 - j) ≤ N % L * 2 ^ (116 - j) :=
          Nat.le_mul_of_pos_left _ hrr1
        have key : L * (N / L * 2 ^ (116 - j)) < L * M := by
          set A := L * (N / L * 2 ^ (116 - j))
          set B := L * M
          set C := N % L * 2 ^ (116 - j)
          set Pv := (2:Nat) ^ (116 - j)
          omega
        exact Nat.lt_of_mul_lt_mul_left key
      · have hrrP2 : N % L * 2 ^ (116 - j) + 2 ^ (116 - j) ≤ L * 2 ^ (116 - j) := by
          have h1 : (N % L + 1) * 2 ^ (116 - j) ≤ L * 2 ^ (116 - j) :=
            Nat.mul_le_mul_right _ (by omega)
          have h2 : (N % L + 1) * 2 ^ (116 - j)
              = N % L * 2 ^ (116 - j) + 2 ^ (116 - j) := by ring
          omega
        have hLk1 : L * ((N / L + 1) * 2 ^ (116 - j))
            = L * (N / L * 2 ^ (116 - j)) + L * 2 ^ (116 - j) := by ring
        have key : L * M ≤ L * ((N / L + 1) * 2 ^ (116 - j)) := by
          rw [hLk1]
          set A := L * (N / L * 2 ^ (116 - j))
          set B := L * M
          set C := N % L * 2 ^ (116 - j)
          set D := L * 2 ^ (116 - j)
          set Pv := (2:Nat) ^ (116 - j)
          omega
        exact Nat.le_of_mul_le_mul_left key (by omega)

/-- Claim C6 (counterexample): with `limit = 1` (which satisfies `limit ≥ 1`)
and `total_count = 2^53 + 1`, the response's `total_page` is not
`ceil(total_count / limit)`: the `u64 as f64` conversion rounds the count to
`2^53` before dividing. -/
theorem total_page_f64_precision_loss :
    1 ≤ exQueryLimit1.get_limit ∧
    (get_all_response exQueryLimit1 [] (2 ^ 53 + 1)).total_page
      ≠ (2 ^ 53 + 1 + exQueryLimit1.get_limit - 1) / exQueryLimit1.get_limit := by
  constructor
  · decide
  · decide

/-- Claim C6 (amended): the response's `page` and `limit` are exactly the
request's values after defaulting (not recomputed), and `total_page` equals
`ceil(total_count / limit)` for every `total_count < 2^52` and every `u32`
limit `≥ 1`; counts at or beyond `2^53` can be rounded by the f64
computation. -/
theorem pagination_response_fields (q : PaginationQuery) (products : List Product)
    (N : Nat) (hN : N < 2 ^ 52) (hL1 : 1 ≤ q.get_limit) (hL2 : q.get_limit < 2 ^ 32) :
    (get_all_response q products N).page = q.get_page ∧
    (get_all_response q products N).limit = q.get_limit ∧
    (get_all_response q products N).total_page = (N + q.get_limit - 1) / q.get_limit :=
  ⟨rfl, rfl, total_pageF64_eq N q.get_limit hN hL1 hL2⟩

/-- Witness for C6 (amended): the spec's own example, 5 items with limit 2. -/
theorem pagination_response_fields_witness :
    ((5 : Nat) < 2 ^ 52 ∧ 1 ≤ exQueryPage3.get_limit ∧ exQueryPage3.get_limit < 2 ^ 32) ∧
    ((get_all_response exQueryPage3 [] 5).page = exQueryPage3.get_page ∧
     (get_all_response exQueryPage3 [] 5).limit = exQueryPage3.get_limit ∧
     (get_all_response exQueryPage3 [] 5).total_page
       = (5 + exQueryPage3.get_limit - 1) / exQueryPage3.get_limit) :=
  ⟨⟨by decide, by decide, by decide⟩,
   pagination_response_fields exQueryPage3 [] 5 (by decide) (by decide) (by decide)⟩

end Mebayu
